import Mathlib

/-!
Verification of the `agilepartner/next-auth` example repository.

The repository wires the NextAuth library into a Next.js application with
Azure AD as the identity provider.  Its own code is:

* `src/middleware.ts` — `middleware`: calls `getToken` on the request and
  redirects to `/api/auth/signin` (resolved against the request URL) when no
  token is present, otherwise lets the request through; plus a route-matcher
  `config` with the glob `'/((?!api|_next|static|.*\..*|favicon.ico).*)'`.
* `authOptions` — the NextAuth configuration: one `AzureADProvider` fed from
  `process.env` with `|| ''` fallbacks, a `session` callback copying
  `token.sub` into `session.user.id`, `secret` from `NEXTAUTH_SECRET`,
  and a `theme`.
* `getSession` — `return await getServerSession(authOptions)`.
* `components/UserProfile.tsx` — renders `Loading...` when the session status
  is `'loading'`, `You are not logged in.` when there is no session, and
  otherwise a welcome message containing `session.user?.name`.

The shallow embedding below models JavaScript `undefined`/`null` as
`Option.none`, `process.env` as a function `String → Option String`, and the
result of the external `getToken` call as a parameter of `middleware`
(an `Option Token`).  JavaScript truthiness is modelled explicitly where the
source relies on it (`x || ''`, `token.sub` as a condition).
-/

/-- A decoded session token as returned by `getToken` (`next-auth/jwt`).
Only the claims' relevant fields are kept; each JWT claim is optional. -/
structure Token where
  sub : Option String
  name : Option String
  email : Option String
  deriving Repr, DecidableEq

/-- The user object inside a session: `DefaultSession['user']`
(`name?`, `email?`, `image?`) extended by the repository's module
augmentation with an `id` field.  At run time `id` is absent until the
`session` callback assigns it, hence `Option`. -/
structure SessionUser where
  id : Option String
  name : Option String
  email : Option String
  image : Option String
  deriving Repr, DecidableEq

/-- A NextAuth session: an optional `user` object plus the `expires`
timestamp carried by every session. -/
structure Session where
  user : Option SessionUser
  expires : String
  deriving Repr, DecidableEq

/-- An incoming `NextRequest`.  Besides the `url` the middleware could in
principle look at, we keep the attributes a request carries so that
non-interference in them is statable. -/
structure NextRequest where
  url : String
  method : String
  headers : List (String × String)
  cookies : List (String × String)
  deriving Repr, DecidableEq

/-- The two responses `middleware` can produce: `NextResponse.redirect(url)`
or `NextResponse.next()`. -/
inductive MiddlewareResponse where
  | redirect (url : String)
  | next
  deriving Repr, DecidableEq

/-- Drop everything from the first `/` on: keeps the authority part of what
follows `scheme://`. -/
def takeAuthority : List Char → List Char
  | [] => []
  | c :: rest => if c = '/' then [] else c :: takeAuthority rest

/-- Split a URL's characters at the `://` separator, returning the scheme
part (with the separator) and the remainder.  When no separator occurs the
whole input ends up in the first component. -/
def splitScheme : List Char → List Char × List Char
  | [] => ([], [])
  | ':' :: '/' :: '/' :: rest => ([':', '/', '/'], rest)
  | c :: rest =>
    let p := splitScheme rest
    (c :: p.1, p.2)

/-- The origin (`scheme://host[:port]`) of an absolute URL. -/
def urlOrigin (url : String) : String :=
  let p := splitScheme url.data
  String.mk (p.1 ++ takeAuthority p.2)

/-- Resolution `new URL(path, base)` for a path-absolute `path`: the base URL's origin
followed by the path. -/
def resolveURL (path base : String) : String :=
  urlOrigin base ++ path

/-- The sign-in path the middleware redirects to. -/
def signInPath : String := "/api/auth/signin"

/-- The `middleware` function from `src/middleware.ts`.  The result of the external
`await getToken({ req: request, secret: process.env.NEXTAUTH_SECRET })`
call is passed in as `token` (`none` models the `null` that `getToken`
returns when no valid token exists).  `if (!token)` — `null` is falsy and
any object is truthy — so the redirect happens exactly when `token` is
`none`; the redirect target is `new URL('/api/auth/signin', request.url)`. -/
def middleware (token : Option Token) (request : NextRequest) :
    MiddlewareResponse :=
  match token with
  | none => .redirect (resolveURL signInPath request.url)
  | some _ => .next

example :
    middleware none
      { url := "https://example.com/dashboard", method := "GET",
        headers := [], cookies := [] } =
      .redirect "https://example.com/api/auth/signin" := by decide

example :
    middleware (some { sub := some "u1", name := none, email := none })
      { url := "https://example.com/dashboard", method := "GET",
        headers := [], cookies := [] } = .next := by decide

/-! ## The NextAuth configuration (`authOptions`) -/

/-- The process environment `process.env`: a partial map from variable names to string values;
`none` models an unset variable. -/
def Env : Type := String → Option String

/-- JavaScript truthiness of an optional string: `undefined` and the empty
string are falsy, every other string is truthy. -/
def truthyStr (x : Option String) : Bool :=
  match x with
  | none => false
  | some s => !(s == "")

/-- JavaScript `x || d` on an optional string: the value when truthy,
otherwise the default. -/
def jsOr (x : Option String) (d : String) : String :=
  match x with
  | none => d
  | some s => if s == "" then d else s

/-- The environment-variable names read by the configuration. -/
def AZURE_AD_CLIENT_ID : String := "AZURE_AD_CLIENT_ID"

def AZURE_AD_CLIENT_SECRET : String := "AZURE_AD_CLIENT_SECRET"

def AZURE_AD_TENANT_ID : String := "AZURE_AD_TENANT_ID"

def NEXTAUTH_SECRET : String := "NEXTAUTH_SECRET"

def NEXTAUTH_URL : String := "NEXTAUTH_URL"

/-- The argument record handed to `AzureADProvider(...)`. -/
structure AzureADProviderConfig where
  clientId : String
  clientSecret : String
  tenantId : String
  deriving Repr, DecidableEq

/-- The `theme` block of `authOptions`. -/
structure Theme where
  colorScheme : String
  logo : String
  deriving Repr, DecidableEq

/-- The `session` callback of `authOptions.callbacks`:
`if (session.user && token.sub) session.user.id = token.sub; return session`.
`session.user` is truthy exactly when the object is present; `token.sub` is
truthy when it is a non-empty string. -/
def sessionCallback (session : Session) (token : Token) : Session :=
  if session.user.isSome && truthyStr token.sub then
    match session.user, token.sub with
    | some u, some s => { session with user := some { u with id := some s } }
    | _, _ => session
  else
    session

/-- The `NextAuthOptions` record built in the source: providers, callbacks,
secret and theme. -/
structure NextAuthOptions where
  providers : List AzureADProviderConfig
  sessionCb : Session → Token → Session
  secret : Option String
  theme : Theme

/-- The `authOptions` record, as a function of the process environment:
one `AzureADProvider` whose `clientId`, `clientSecret` and `tenantId` come
from the environment with `|| ''` fallbacks, the `session` callback above,
`secret: process.env.NEXTAUTH_SECRET`, and a light theme with the
`/next.svg` logo. -/
def authOptions (env : Env) : NextAuthOptions :=
  { providers :=
      [{ clientId := jsOr (env AZURE_AD_CLIENT_ID) ""
         clientSecret := jsOr (env AZURE_AD_CLIENT_SECRET) ""
         tenantId := jsOr (env AZURE_AD_TENANT_ID) "" }]
    sessionCb := sessionCallback
    secret := env NEXTAUTH_SECRET
    theme := { colorScheme := "light", logo := "/next.svg" } }

/-- The secret the middleware hands to `getToken`:
`process.env.NEXTAUTH_SECRET`, read directly from the environment. -/
def middlewareGetTokenSecret (env : Env) : Option String :=
  env NEXTAUTH_SECRET

/-- The `getSession` helper from the source:
`return await getServerSession(authOptions)` — the external call, modelled
as an arbitrary function `gss` of the options and the execution context,
applied to `authOptions` and the context, with nothing added. -/
def getSession {Ctx Res : Type} (env : Env)
    (gss : NextAuthOptions → Ctx → Res) (ctx : Ctx) : Res :=
  gss (authOptions env) ctx

/-- Modelled from the spec: "Every operation … is a direct call-through to
external library functions with no added logic" — the specification-side
description of `getSession` as the bare external call on `authOptions`. -/
def getSessionSpec {Ctx Res : Type} (env : Env)
    (gss : NextAuthOptions → Ctx → Res) (ctx : Ctx) : Res :=
  gss (authOptions env) ctx

/-! ## The `UserProfile` component -/

/-- The `status` values `useSession` can report. -/
inductive SessionStatus where
  | loading
  | authenticated
  | unauthenticated
  deriving Repr, DecidableEq

/-- The three renderings `UserProfile` can produce.  `welcome` carries the
value of `session.user?.name` interpolated into the message. -/
inductive ProfileView where
  | loadingMsg
  | notLoggedInMsg
  | welcome (name : Option String)
  deriving Repr, DecidableEq

/-- The `UserProfile` component from `components/UserProfile.tsx`:
`if (status === 'loading') return <p>Loading...</p>;`
`if (!session) return <p>You are not logged in.</p>;`
`return <div>Welcome, {session.user?.name}!</div>` —
`session` is `null` (falsy) exactly when `none`, and `session.user?.name`
is the optional chaining through `user` to `name`. -/
def UserProfile (status : SessionStatus) (session : Option Session) :
    ProfileView :=
  if status = SessionStatus.loading then
    .loadingMsg
  else
    match session with
    | none => .notLoggedInMsg
    | some s => .welcome (s.user.bind SessionUser.name)

example :
    UserProfile SessionStatus.authenticated
      (some { user := some { id := some "u1", name := some "Ada",
                             email := none, image := none },
              expires := "2026-01-01" }) = .welcome (some "Ada") := by decide

example : UserProfile SessionStatus.loading none = .loadingMsg := by decide

example :
    UserProfile SessionStatus.unauthenticated none = .notLoggedInMsg := by
  decide

/-! ## The route matcher

`export const config = { matcher: ['/((?!api|_next|static|.*\..*|favicon.ico).*)'] }`

Next.js treats the matcher entry as an anchored pattern over the request
pathname: a literal `/` followed by a group containing a negative lookahead
and `.*`.  We embed the regex constructs that occur in the pattern as a
small AST with an executable matcher, build the lookahead's regex
`api|_next|static|.*\..*|favicon.ico` from that AST token for token, and
define acceptance as: the pathname starts with `/` and the lookahead regex
matches no prefix of the remainder (the trailing `.*` then consumes the
remainder unconditionally). -/

/-- Regexes occurring in the matcher pattern: empty, a literal character,
concatenation, alternation, and `.*` (any characters; request pathnames
contain no newline, so `.` is any character here). -/
inductive Rx where
  | eps
  | ch (c : Char)
  | seq (a b : Rx)
  | alt (a b : Rx)
  | anystar
  deriving Repr, DecidableEq

/-- All remainders left after matching `r` against some prefix of `s`. -/
def matchRem : Rx → List Char → List (List Char)
  | .eps, s => [s]
  | .ch _, [] => []
  | .ch c, a :: s => if a = c then [s] else []
  | .seq r1 r2, s => (matchRem r1 s).flatMap (matchRem r2)
  | .alt r1 r2, s => matchRem r1 s ++ matchRem r2 s
  | .anystar, s => s.tails

/-- Whether `r` matches some prefix of `s` — the success condition of a lookahead
positioned at the start of `s`. -/
def rxMatchesAtStart (r : Rx) (s : List Char) : Bool :=
  !(matchRem r s).isEmpty

/-- A literal-string regex: the concatenation of its characters. -/
def rstr : List Char → Rx
  | [] => .eps
  | c :: w => .seq (.ch c) (rstr w)

/-- The regex `.*\..*`. -/
def dotAnyRx : Rx :=
  .seq .anystar (.seq (.ch '.') .anystar)

def apiChars : List Char := "api".data

def nextChars : List Char := "_next".data

def staticChars : List Char := "static".data

def faviconChars : List Char := "favicon.ico".data

/-- The lookahead's regex `api|_next|static|.*\..*|favicon.ico`. -/
def matcherInnerRx : Rx :=
  .alt (rstr apiChars)
    (.alt (rstr nextChars)
      (.alt (rstr staticChars)
        (.alt dotAnyRx (rstr faviconChars))))

/-- The matcher `'/((?!api|_next|static|.*\..*|favicon.ico).*)'` applied to
a request pathname: a leading `/`, then the negative lookahead must fail to
match any prefix of the remainder, then `.*` consumes the remainder. -/
def matcherAccepts (path : String) : Bool :=
  match path.data with
  | [] => false
  | c :: rest => c == '/' && !(rxMatchesAtStart matcherInnerRx rest)

/-- Boolean test: does the character list begin with the given pattern? -/
def beginsWith : List Char → List Char → Bool
  | [], _ => true
  | _ :: _, [] => false
  | a :: w, b :: s => a == b && beginsWith w s

/-- Boolean test: does the character list contain the given character? -/
def containsChar (c : Char) : List Char → Bool
  | [] => false
  | a :: s => a == c || containsChar c s

/-- The claim's characterization of the matcher: after the leading slash the
path does not start with `api`, `_next` or `static`, contains no dot, and is
not `favicon.ico`. -/
def specMatcherAccepts (path : String) : Bool :=
  match path.data with
  | [] => false
  | c :: rest =>
    c == '/' && !(beginsWith apiChars rest) && !(beginsWith nextChars rest) &&
    !(beginsWith staticChars rest) && !(containsChar '.' rest) &&
    !(rest == faviconChars)

example : matcherAccepts "/dashboard" = true := by decide

example : matcherAccepts "/api/auth/signin" = false := by decide

example : matcherAccepts "/_next/data" = false := by decide

example : matcherAccepts "/static/img" = false := by decide

example : matcherAccepts "/favicon.ico" = false := by decide

example : matcherAccepts "/logo.svg" = false := by decide

example : matcherAccepts "/profile/settings" = true := by decide

/-! ## Matcher lemmas -/

theorem matchRem_rstr_ne_nil (w : List Char) :
    ∀ s : List Char, matchRem (rstr w) s ≠ [] ↔ beginsWith w s = true := by
  induction w with
  | nil =>
    intro s
    simp [rstr, matchRem, beginsWith]
  | cons c w ih =>
    intro s
    cases s with
    | nil => simp [rstr, matchRem, beginsWith]
    | cons a s =>
      by_cases hac : a = c
      · subst hac
        simp [rstr, matchRem, beginsWith, ih]
      · have hca : c ≠ a := fun h => hac h.symm
        simp [rstr, matchRem, beginsWith, hac, hca]

theorem matchRem_chDotStar_ne_nil (t : List Char) :
    matchRem (Rx.seq (Rx.ch '.') Rx.anystar) t ≠ [] ↔
      ∃ t', t = '.' :: t' := by
  cases t with
  | nil => simp [matchRem]
  | cons a t =>
    by_cases ha : a = '.'
    · subst ha
      simp [matchRem]
      exact (List.ne_nil_of_length_pos (by simp))
    · simp [matchRem, ha]

theorem matchRem_dotAny_ne_nil (s : List Char) :
    matchRem dotAnyRx s ≠ [] ↔ containsChar '.' s = true := by
  induction s with
  | nil => decide
  | cons a s ih =>
    have hstep :
        matchRem dotAnyRx (a :: s) =
          matchRem (Rx.seq (Rx.ch '.') Rx.anystar) (a :: s) ++
            matchRem dotAnyRx s := by
      simp [dotAnyRx, matchRem]
    rw [hstep]
    by_cases ha : a = '.'
    · subst ha
      constructor
      · intro _
        simp [containsChar]
      · intro _
        intro hnil
        rcases List.append_eq_nil.mp hnil with ⟨h1, _⟩
        exact (matchRem_chDotStar_ne_nil _).mpr ⟨s, rfl⟩ h1
    · have h1 : matchRem (Rx.seq (Rx.ch '.') Rx.anystar) (a :: s) = [] := by
        by_contra hne
        rcases (matchRem_chDotStar_ne_nil _).mp hne with ⟨t', ht⟩
        injection ht with h1 h2
        exact ha h1
      rw [h1, List.nil_append]
      rw [ih]
      simp [containsChar, ha]

theorem rxInner_ne_nil (rest : List Char) :
    matchRem matcherInnerRx rest ≠ [] ↔
      (beginsWith apiChars rest = true ∨ beginsWith nextChars rest = true ∨
       beginsWith staticChars rest = true ∨ containsChar '.' rest = true ∨
       beginsWith faviconChars rest = true) := by
  have e : matchRem matcherInnerRx rest =
      matchRem (rstr apiChars) rest ++
        (matchRem (rstr nextChars) rest ++
          (matchRem (rstr staticChars) rest ++
            (matchRem dotAnyRx rest ++ matchRem (rstr faviconChars) rest))) := by
    simp [matcherInnerRx, matchRem]
  rw [e]
  constructor
  · intro h
    by_contra hc
    push_neg at hc
    obtain ⟨h1, h2, h3, h4, h5⟩ := hc
    have e1 : matchRem (rstr apiChars) rest = [] := by
      by_contra hne
      exact h1 ((matchRem_rstr_ne_nil _ _).mp hne)
    have e2 : matchRem (rstr nextChars) rest = [] := by
      by_contra hne
      exact h2 ((matchRem_rstr_ne_nil _ _).mp hne)
    have e3 : matchRem (rstr staticChars) rest = [] := by
      by_contra hne
      exact h3 ((matchRem_rstr_ne_nil _ _).mp hne)
    have e4 : matchRem dotAnyRx rest = [] := by
      by_contra hne
      exact h4 ((matchRem_dotAny_ne_nil _).mp hne)
    have e5 : matchRem (rstr faviconChars) rest = [] := by
      by_contra hne
      exact h5 ((matchRem_rstr_ne_nil _ _).mp hne)
    exact h (by rw [e1, e2, e3, e4, e5]; rfl)
  · intro h hnil
    simp only [List.append_eq_nil] at hnil
    obtain ⟨e1, e2, e3, e4, e5⟩ := hnil
    rcases h with h | h | h | h | h
    · exact (matchRem_rstr_ne_nil _ _).mpr h e1
    · exact (matchRem_rstr_ne_nil _ _).mpr h e2
    · exact (matchRem_rstr_ne_nil _ _).mpr h e3
    · exact (matchRem_dotAny_ne_nil _).mpr h e4
    · exact (matchRem_rstr_ne_nil _ _).mpr h e5

theorem beginsWith_refl (w : List Char) : beginsWith w w = true := by
  induction w with
  | nil => rfl
  | cons a w ih => simp [beginsWith, ih]

theorem beginsWith_containsChar (c : Char) (w : List Char) :
    ∀ s : List Char, beginsWith w s = true → containsChar c w = true →
      containsChar c s = true := by
  induction w with
  | nil =>
    intro s _ hmem
    simp [containsChar] at hmem
  | cons a w ih =>
    intro s hb hmem
    cases s with
    | nil => simp [beginsWith] at hb
    | cons b s =>
      simp only [beginsWith, Bool.and_eq_true, beq_iff_eq] at hb
      obtain ⟨hab, hb'⟩ := hb
      simp only [containsChar, Bool.or_eq_true, beq_iff_eq] at hmem ⊢
      rcases hmem with hac | hmem
      · exact Or.inl (hab ▸ hac)
      · exact Or.inr (ih s hb' (by simpa [containsChar] using hmem))

theorem rxMatchesAtStart_eq_false_iff (r : Rx) (s : List Char) :
    rxMatchesAtStart r s = false ↔ matchRem r s = [] := by
  cases hm : matchRem r s with
  | nil => simp [rxMatchesAtStart, hm]
  | cons x xs => simp [rxMatchesAtStart, hm]

theorem matcherAccepts_core (rest : List Char) :
    (!(rxMatchesAtStart matcherInnerRx rest)) =
      (!(beginsWith apiChars rest) && !(beginsWith nextChars rest) &&
       !(beginsWith staticChars rest) && !(containsChar '.' rest) &&
       !(rest == faviconChars)) := by
  rw [Bool.eq_iff_iff]
  simp only [Bool.not_eq_true', Bool.and_eq_true, beq_eq_false_iff_ne]
  rw [rxMatchesAtStart_eq_false_iff]
  constructor
  · intro hmr
    have hnd : ¬(beginsWith apiChars rest = true ∨
        beginsWith nextChars rest = true ∨
        beginsWith staticChars rest = true ∨
        containsChar '.' rest = true ∨
        beginsWith faviconChars rest = true) := by
      intro hd
      exact (rxInner_ne_nil rest).mpr hd hmr
    push_neg at hnd
    obtain ⟨h1, h2, h3, h4, h5⟩ := hnd
    refine ⟨⟨⟨⟨Bool.eq_false_iff.mpr h1, Bool.eq_false_iff.mpr h2⟩,
      Bool.eq_false_iff.mpr h3⟩, Bool.eq_false_iff.mpr h4⟩, ?_⟩
    intro heq
    exact h5 (heq ▸ beginsWith_refl faviconChars)
  · rintro ⟨⟨⟨⟨b1, b2⟩, b3⟩, b4⟩, hne⟩
    by_contra hmr
    rcases (rxInner_ne_nil rest).mp hmr with h | h | h | h | h
    · exact absurd h (Bool.eq_false_iff.mp b1)
    · exact absurd h (Bool.eq_false_iff.mp b2)
    · exact absurd h (Bool.eq_false_iff.mp b3)
    · exact absurd h (Bool.eq_false_iff.mp b4)
    · have hdot : containsChar '.' rest = true :=
        beginsWith_containsChar '.' faviconChars rest h (by decide)
      exact absurd hdot (Bool.eq_false_iff.mp b4)

/-! ## Concrete fixtures used by witnesses and counterexamples -/

def reqA : NextRequest :=
  { url := "https://example.com/dashboard", method := "GET",
    headers := [], cookies := [] }

def reqB : NextRequest :=
  { url := "https://example.com/dashboard", method := "POST",
    headers := [("x-test", "1")], cookies := [("c", "v")] }

def tokenA : Token :=
  { sub := some "user-1", name := some "Ada", email := none }

def tokenB : Token :=
  { sub := some "user-2", name := none, email := some "b@example.com" }

/-- A token whose `sub` claim is present but is the empty string. -/
def emptySubToken : Token :=
  { sub := some "", name := none, email := none }

def sessionA : Session :=
  { user := some { id := none, name := some "Ada", email := none,
                   image := none },
    expires := "2026-01-01T00:00:00Z" }

def noUserSession : Session :=
  { user := none, expires := "2026-01-01T00:00:00Z" }

/-- An environment with every variable unset. -/
def envNone : Env := fun _ => none

/-- An environment that differs from `envB` only in the base URL. -/
def envA : Env :=
  fun n => if n == NEXTAUTH_URL then some "https://a.example" else some "x"

/-- An environment that differs from `envA` only in the base URL. -/
def envB : Env :=
  fun n => if n == NEXTAUTH_URL then some "https://b.example" else some "x"

/-! ## Claim theorems -/

/-- C1: the middleware returns a redirect to `/api/auth/signin` resolved
against the request's URL if and only if `getToken` yields no token, and
when a token is present it returns `NextResponse.next()`. -/
theorem middleware_redirect_iff_no_token (token : Option Token)
    (request : NextRequest) :
    (middleware token request =
        .redirect (resolveURL signInPath request.url) ↔ token = none) ∧
    (token ≠ none → middleware token request = .next) := by
  cases token with
  | none => simp [middleware]
  | some t => simp [middleware]

/-- C1 witness: on a concrete authenticated request the equivalence holds
and the middleware lets the request through. -/
theorem middleware_redirect_iff_no_token_witness :
    ((middleware (some tokenA) reqA =
        .redirect (resolveURL signInPath reqA.url) ↔
        (some tokenA : Option Token) = none) ∧
      ((some tokenA : Option Token) ≠ none →
        middleware (some tokenA) reqA = .next)) ∧
    middleware (some tokenA) reqA = .next :=
  ⟨middleware_redirect_iff_no_token (some tokenA) reqA,
   (middleware_redirect_iff_no_token (some tokenA) reqA).2 (by decide)⟩

/-- C7: the middleware's response is a deterministic function of the token's
presence and the request's URL alone — any two runs agreeing on those two
inputs produce the same response, whatever the tokens' contents and the
requests' other attributes are. -/
theorem middleware_deterministic (t1 t2 : Option Token)
    (r1 r2 : NextRequest) (htok : t1.isSome = t2.isSome)
    (hurl : r1.url = r2.url) :
    middleware t1 r1 = middleware t2 r2 := by
  cases t1 <;> cases t2 <;> simp_all [middleware]

/-- C7 witness: different tokens and requests differing in method, headers
and cookies, but with the same URL and token presence, give equal
responses. -/
theorem middleware_deterministic_witness :
    middleware (some tokenA) reqA = middleware (some tokenB) reqB :=
  middleware_deterministic (some tokenA) (some tokenB) reqA reqB
    (by decide) (by decide)

/-- C2 counterexample: with a user object present and a subject claim that
is present but empty, the callback does not copy the subject claim into
`session.user.id` (the empty string is falsy in JavaScript, so the guard
`session.user && token.sub` fails). -/
theorem sessionCallback_empty_sub_counterexample :
    sessionA.user.isSome = true ∧ emptySubToken.sub.isSome = true ∧
    (sessionCallback sessionA emptySubToken).user.bind SessionUser.id ≠
      emptySubToken.sub := by decide

/-- C2 (amended): whenever `session.user` is present and `token.sub` is
present and non-empty, the returned session's user carries `id` equal to
the token's subject claim and is otherwise the input user. -/
theorem sessionCallback_assigns_id (session : Session) (token : Token)
    (u : SessionUser) (s : String) (hu : session.user = some u)
    (hs : token.sub = some s) (hne : s ≠ "") :
    (sessionCallback session token).user = some { u with id := some s } ∧
    (sessionCallback session token).user.bind SessionUser.id = token.sub := by
  have ht : truthyStr (some s) = true := by
    simp [truthyStr, hne]
  constructor
  · simp [sessionCallback, hu, hs, ht]
  · simp [sessionCallback, hu, hs, ht]

/-- C2 witness: a concrete session and token with a non-empty subject
claim. -/
theorem sessionCallback_assigns_id_witness :
    (sessionCallback sessionA tokenA).user =
      some { id := some "user-1", name := some "Ada", email := none,
             image := none } ∧
    (sessionCallback sessionA tokenA).user.bind SessionUser.id =
      tokenA.sub :=
  sessionCallback_assigns_id sessionA tokenA
    { id := none, name := some "Ada", email := none, image := none }
    "user-1" rfl rfl (by decide)

/-- C8: the session callback changes nothing but `user.id` — `expires`,
the presence of `user` and the user's `name`, `email` and `image` are
preserved — and when `session.user` or `token.sub` is absent the input
session is returned entirely unchanged. -/
theorem sessionCallback_frame (session : Session) (token : Token) :
    (sessionCallback session token).expires = session.expires ∧
    ((sessionCallback session token).user).isSome = session.user.isSome ∧
    ((sessionCallback session token).user).map SessionUser.name =
      session.user.map SessionUser.name ∧
    ((sessionCallback session token).user).map SessionUser.email =
      session.user.map SessionUser.email ∧
    ((sessionCallback session token).user).map SessionUser.image =
      session.user.map SessionUser.image ∧
    ((session.user = none ∨ token.sub = none) →
      sessionCallback session token = session) := by
  cases hu : session.user with
  | none => simp [sessionCallback, hu]
  | some u =>
    cases hs : token.sub with
    | none => simp [sessionCallback, hu, hs, truthyStr]
    | some s =>
      by_cases hse : s = ""
      · subst hse
        simp [sessionCallback, hu, hs, truthyStr]
      · simp [sessionCallback, hu, hs, truthyStr, hse]

/-- C8 witness: with no user object on the session the callback returns the
session unchanged. -/
theorem sessionCallback_frame_witness :
    sessionCallback noUserSession tokenA = noUserSession :=
  (sessionCallback_frame noUserSession tokenA).2.2.2.2.2 (Or.inl rfl)

/-- C3: the route-matching configuration accepts exactly the pathnames
that, after the leading slash, do not start with `api`, `_next` or
`static`, contain no dot, and are not `favicon.ico` — so API paths,
framework-internal paths and static-asset paths are excluded and every
other page path is intercepted. -/
theorem config_matcher_characterization (path : String) :
    matcherAccepts path = specMatcherAccepts path := by
  unfold matcherAccepts specMatcherAccepts
  cases hp : path.data with
  | nil => rfl
  | cons c rest =>
    by_cases hc : c = '/'
    · subst hc
      simp only [beq_self_eq_true, Bool.true_and]
      exact matcherAccepts_core rest
    · have hcc : (c == '/') = false := beq_eq_false_iff_ne.mpr hc
      simp [hcc]

/-- C4: in every authenticated state — a non-`null` session together with a
status other than `'loading'` — `UserProfile` renders the welcome message
carrying the session user's name (`session.user?.name`). -/
theorem UserProfile_welcome (status : SessionStatus)
    (session : Option Session) (s : Session)
    (hst : status ≠ SessionStatus.loading) (hs : session = some s) :
    UserProfile status session =
      .welcome (s.user.bind SessionUser.name) := by
  subst hs
  simp [UserProfile, hst]

/-- C4 witness: an authenticated status with a concrete session renders the
welcome message with the user's name. -/
theorem UserProfile_welcome_witness :
    UserProfile SessionStatus.authenticated (some sessionA) =
      .welcome (some "Ada") :=
  UserProfile_welcome SessionStatus.authenticated (some sessionA) sessionA
    (by decide) rfl

/-- C5: `getSession` is a pure call-through — for every external
`getServerSession` behavior and every execution context it returns exactly
`getServerSession(authOptions)` applied to that context, which is also
literally the specification-side description `getSessionSpec`. -/
theorem getSession_callthrough :
    ∀ (Ctx Res : Type) (env : Env) (gss : NextAuthOptions → Ctx → Res)
      (ctx : Ctx),
      getSession env gss ctx = getSessionSpec env gss ctx ∧
      getSession env gss ctx = gss (authOptions env) ctx := by
  intro Ctx Res env gss ctx
  exact ⟨rfl, rfl⟩

/-- C6 counterexample: the base-URL environment variable is not passed
anywhere by the repository's code — two environments that differ only in
`NEXTAUTH_URL` produce the same `authOptions` and the same middleware
token-decoding secret, so the configuration passes four environment
variables, not five. -/
theorem authOptions_ignores_base_url :
    envA NEXTAUTH_URL ≠ envB NEXTAUTH_URL ∧
    authOptions envA = authOptions envB ∧
    middlewareGetTokenSecret envA = middlewareGetTokenSecret envB :=
  ⟨by decide, rfl, rfl⟩

/-- C6 (amended): the configuration passes exactly four environment
variables to the library — client identifier, client secret and tenant
identifier reach the provider configuration unchanged modulo the
empty-string fallback, and the session-signing secret is supplied both as
the options' `secret` and as the middleware's token-decoding secret — and
two environments agreeing on those four variables yield identical
`authOptions` and middleware secret, so no other environment variable
influences authentication. -/
theorem authOptions_env_dependence (env env' : Env)
    (h1 : env AZURE_AD_CLIENT_ID = env' AZURE_AD_CLIENT_ID)
    (h2 : env AZURE_AD_CLIENT_SECRET = env' AZURE_AD_CLIENT_SECRET)
    (h3 : env AZURE_AD_TENANT_ID = env' AZURE_AD_TENANT_ID)
    (h4 : env NEXTAUTH_SECRET = env' NEXTAUTH_SECRET) :
    ((authOptions env).providers =
        [{ clientId := jsOr (env AZURE_AD_CLIENT_ID) ""
           clientSecret := jsOr (env AZURE_AD_CLIENT_SECRET) ""
           tenantId := jsOr (env AZURE_AD_TENANT_ID) "" }] ∧
      (authOptions env).secret = env NEXTAUTH_SECRET ∧
      middlewareGetTokenSecret env = env NEXTAUTH_SECRET) ∧
    authOptions env = authOptions env' ∧
    middlewareGetTokenSecret env = middlewareGetTokenSecret env' := by
  refine ⟨⟨rfl, rfl, rfl⟩, ?_, ?_⟩
  · simp [authOptions, h1, h2, h3, h4]
  · simp [middlewareGetTokenSecret, h4]

/-- C6 witness: the amended statement at the two concrete environments that
agree on the four consumed variables. -/
theorem authOptions_env_dependence_witness :
    (((authOptions envA).providers =
        [{ clientId := jsOr (envA AZURE_AD_CLIENT_ID) ""
           clientSecret := jsOr (envA AZURE_AD_CLIENT_SECRET) ""
           tenantId := jsOr (envA AZURE_AD_TENANT_ID) "" }] ∧
      (authOptions envA).secret = envA NEXTAUTH_SECRET ∧
      middlewareGetTokenSecret envA = envA NEXTAUTH_SECRET) ∧
    authOptions envA = authOptions envB ∧
    middlewareGetTokenSecret envA = middlewareGetTokenSecret envB) :=
  authOptions_env_dependence envA envB rfl rfl rfl rfl

/-- C9: the provider configuration is always a single entry, and each of
the client identifier, client secret and tenant identifier falls back to
the empty string when its environment variable is unset. -/
theorem azureProvider_default_empty (env : Env) :
    (authOptions env).providers.length = 1 ∧
    (env AZURE_AD_CLIENT_ID = none →
      (authOptions env).providers.map AzureADProviderConfig.clientId =
        [""]) ∧
    (env AZURE_AD_CLIENT_SECRET = none →
      (authOptions env).providers.map AzureADProviderConfig.clientSecret =
        [""]) ∧
    (env AZURE_AD_TENANT_ID = none →
      (authOptions env).providers.map AzureADProviderConfig.tenantId =
        [""]) := by
  refine ⟨rfl, ?_, ?_, ?_⟩ <;> intro h <;> simp [authOptions, h, jsOr]

/-- C9 witness: with every variable unset the provider entry is built with
all three fields empty. -/
theorem azureProvider_default_empty_witness :
    (authOptions envNone).providers.map AzureADProviderConfig.clientId =
      [""] ∧
    (authOptions envNone).providers.map AzureADProviderConfig.clientSecret =
      [""] ∧
    (authOptions envNone).providers.map AzureADProviderConfig.tenantId =
      [""] :=
  ⟨(azureProvider_default_empty envNone).2.1 rfl,
   (azureProvider_default_empty envNone).2.2.1 rfl,
   (azureProvider_default_empty envNone).2.2.2 rfl⟩

/-- C10: `UserProfile` renders exactly one of three outputs with a fixed
priority — `Loading...` exactly when the status is `'loading'`, the
not-logged-in message exactly when the status is not `'loading'` and the
session is `null`, and the welcome message exactly otherwise. -/
theorem UserProfile_trichotomy (status : SessionStatus)
    (session : Option Session) :
    (UserProfile status session = .loadingMsg ↔
      status = SessionStatus.loading) ∧
    (UserProfile status session = .notLoggedInMsg ↔
      (status ≠ SessionStatus.loading ∧ session = none)) ∧
    ((∃ n, UserProfile status session = .welcome n) ↔
      (status ≠ SessionStatus.loading ∧ session ≠ none)) := by
  cases status <;> cases session <;> simp [UserProfile]

/-- C10 witness: for a concrete non-loading status and session the welcome
branch is taken. -/
theorem UserProfile_trichotomy_witness :
    ∃ n, UserProfile SessionStatus.authenticated (some sessionA) =
      .welcome n :=
  (UserProfile_trichotomy SessionStatus.authenticated
      (some sessionA)).2.2.mpr ⟨by decide, by decide⟩
